import Mathlib

/-!
The finala storage layer (`storage/mysql.go`).

A shallow embedding of `MySQLManager.GetSummary`, `MySQLManager.GetTableData`,
`MySQLManager.GetAllTables` and `MySQLManager.ClearTables`, together with the
parts of Go's `strconv` package (`ParseFloat`, `ParseBool`) that decide how a
scanned column value is typed.

Conventions.

* A Go `string` / `[]byte` is a Lean `String`; the parsers inspect only ASCII
  characters, every other character is simply "not a digit".
* A Go `error` is `Option Err` (`none` is `nil`); a function that may panic
  returns `Outcome`.
* The database behind `s.db` is the record `DB`: the rows of the status ledger,
  the resource tables, and a fault oracle saying which statements fail.
* A Go `float64` is an `F64`, with correctly rounded parsing and addition.
-/

namespace Storage

/-! ## `strconv` -/

/-- A binary64 value.  `finite neg m e` is `(-1)^neg * m * 2^e` in canonical form:
`m < 2^53`, `-1074 ≤ e ≤ 971`, and `2^52 ≤ m` unless `e = -1074`. -/
inductive F64 where
  | finite (neg : Bool) (mant : Nat) (exp : Int)
  | inf (neg : Bool)
  | nan
  deriving DecidableEq, Repr

/-- The real number denoted by a finite binary64 value (`0` for `±Inf` and `NaN`). -/
def F64.toRat : F64 → ℚ
  | .finite neg m e => (if neg then -1 else 1) * (m : ℚ) * (2 : ℚ) ^ e
  | .inf _ => 0
  | .nan => 0

/-- The `Err` field of `*strconv.NumError`. -/
inductive NumError where
  | ErrSyntax
  | ErrRange
  deriving DecidableEq, Repr

/-- Go's `lower(c)`, i.e. `c | ('x' - 'X')`, on the character code. -/
def lower (c : Char) : Nat := c.toNat ||| 0x20

/-- Predicate `'0' <= c && c <= '9'`. -/
def isDigit (c : Char) : Bool := decide (48 ≤ c.toNat) && decide (c.toNat ≤ 57)

/-- Predicate `'a' <= lower(c) && lower(c) <= 'f'`. -/
def isHexLetter (c : Char) : Bool := decide (97 ≤ lower c) && decide (lower c ≤ 102)

/-- Go's `commonPrefixLenIgnoreCase(s, prefix)`; `prefix` is lower case. -/
def commonPrefixLenIgnoreCase : List Char → List Char → Nat
  | c :: s, p :: rest =>
    let c1 : Nat := if 65 ≤ c.toNat ∧ c.toNat ≤ 90 then c.toNat + 32 else c.toNat
    if c1 = p.toNat then commonPrefixLenIgnoreCase s rest + 1 else 0
  | _, _ => 0

/-- The `'i', 'I'` case of `special`: the length of the `inf` / `infinity` prefix. -/
def infinityLen (s : List Char) : Option Nat :=
  let n := commonPrefixLenIgnoreCase s "infinity".toList
  let n := if 3 < n ∧ n < 8 then 3 else n
  if n = 3 ∨ n = 8 then some n else none

/-- Go's `special(s)`: the value and the number of characters consumed. -/
def special (s : List Char) : Option (F64 × Nat) :=
  match s with
  | [] => none
  | c :: rest =>
    if c = '+' ∨ c = '-' then
      (infinityLen rest).map (fun n => (F64.inf (decide (c = '-')), 1 + n))
    else if c = 'i' ∨ c = 'I' then
      (infinityLen s).map (fun n => (F64.inf false, n))
    else if c = 'n' ∨ c = 'N' then
      if commonPrefixLenIgnoreCase s "nan".toList = 3 then some (F64.nan, 3) else none
    else none

/-- Go's `underscoreOK` after the sign and base prefix: `saw` is the last
character class seen (`0` digit or prefix, `1` underscore, `2` anything else,
`3` beginning of the number). -/
def underscoreLoop (hex : Bool) : Nat → List Char → Bool
  | saw, [] => saw != 1
  | saw, c :: rest =>
    if isDigit c || (hex && isHexLetter c) then underscoreLoop hex 0 rest
    else if c = '_' then
      if saw != 0 then false else underscoreLoop hex 1 rest
    else if saw == 1 then false
    else underscoreLoop hex 2 rest

/-- Go's `underscoreOK(s)`: underscores only between digits or between a base
prefix and a digit. -/
def underscoreOK (s : List Char) : Bool :=
  let s := match s with
    | c :: rest => if c = '-' ∨ c = '+' then rest else s
    | [] => s
  match s with
  | c0 :: c1 :: rest =>
    if c0 = '0' ∧ (lower c1 = 98 ∨ lower c1 = 111 ∨ lower c1 = 120) then
      underscoreLoop (lower c1 == 120) 0 rest
    else underscoreLoop false 3 s
  | _ => underscoreLoop false 3 s

/-- The variables of `readFloat`'s digit loop.  The mantissa is kept in full
(Go keeps 19 digits and re-reads the text when more are needed). -/
structure Digits where
  mantissa : Nat := 0
  nd : Nat := 0
  dp : Int := 0
  sawdot : Bool := false
  sawdigits : Bool := false
  underscores : Bool := false
  deriving DecidableEq, Repr

/-- The digit loop of `readFloat`; returns the state at the `break` and the
unread text. -/
def readDigits (base16 : Bool) : Digits → List Char → Digits × List Char
  | st, [] => (st, [])
  | st, c :: rest =>
    if c = '_' then readDigits base16 { st with underscores := true } rest
    else if c = '.' then
      if st.sawdot then (st, c :: rest)
      else readDigits base16 { st with sawdot := true, dp := st.nd } rest
    else if isDigit c then
      if c = '0' ∧ st.nd = 0 then
        readDigits base16 { st with sawdigits := true, dp := st.dp - 1 } rest
      else
        readDigits base16
          { st with
            sawdigits := true
            nd := st.nd + 1
            mantissa := st.mantissa * (if base16 then 16 else 10) + (c.toNat - 48) } rest
    else if base16 && isHexLetter c then
      readDigits base16
        { st with
          sawdigits := true
          nd := st.nd + 1
          mantissa := st.mantissa * 16 + (lower c - 97 + 10) } rest
    else (st, c :: rest)

/-- The exponent loop of `readFloat` (`e` saturates once it reaches 10000). -/
def readExp : Nat → Bool → List Char → Nat × Bool × List Char
  | e, us, [] => (e, us, [])
  | e, us, c :: rest =>
    if c = '_' then readExp e true rest
    else if isDigit c then readExp (if e < 10000 then e * 10 + (c.toNat - 48) else e) us rest
    else (e, us, c :: rest)

/-- What `readFloat` finds in a text it accepts completely: sign, base, the
mantissa digits as a number, and the exponent `exp` of the base (10, or 2 for a
hexadecimal literal) such that the value is `mantissa * base^exp`; `dp` is the
position of the decimal point relative to the first significant digit. -/
structure FloatLit where
  neg : Bool
  hex : Bool
  mantissa : Nat
  exp : Int
  dp : Int
  deriving DecidableEq, Repr

/-- Go's `readFloat(s)` followed by the test `n == len(s)` of `ParseFloat`:
`none` is a syntax error. -/
def readFloat (s : List Char) : Option FloatLit :=
  match s with
  | [] => none
  | c :: rest =>
    let neg := decide (c = '-')
    let s1 := if c = '+' ∨ c = '-' then rest else s
    let hex := match s1 with
      | c0 :: c1 :: _ :: _ => decide (c0 = '0') && decide (lower c1 = 120)
      | _ => false
    let s2 := if hex then s1.drop 2 else s1
    let (st, s3) := readDigits hex {} s2
    if !st.sawdigits then none else
    let dp0 : Int := if st.sawdot then st.dp else st.nd
    let dp1 : Int := if hex then dp0 * 4 else dp0
    let ndMant : Int := if hex then (st.nd : Int) * 4 else st.nd
    let finish (dp : Int) (us : Bool) : Option FloatLit :=
      if us && !underscoreOK s then none
      else some ⟨neg, hex, st.mantissa, if st.mantissa = 0 then 0 else dp - ndMant, dp⟩
    match s3 with
    | [] => if hex then none else finish dp1 st.underscores
    | c :: s4 =>
      if lower c = (if hex then 112 else 101) then
        match s4 with
        | [] => none
        | d :: s5 =>
          let esign : Int := if d = '-' then -1 else 1
          let s6 := if d = '+' ∨ d = '-' then s5 else s4
          match s6 with
          | [] => none
          | d0 :: _ =>
            if !isDigit d0 then none else
            match readExp 0 st.underscores s6 with
            | (e, us, []) => finish (dp1 + (e : Int) * esign) us
            | _ => none
      else none

/-- Numerator and denominator of `(n / d) / 2^u`. -/
def scaleBy (n d : Nat) (u : Int) : Nat × Nat :=
  if 0 ≤ u then (n, d * 2 ^ u.toNat) else (n * 2 ^ (-u).toNat, d)

/-- Number of binary digits of `n`, by halving at most `fuel` times. -/
def bitLength : Nat → Nat → Nat
  | 0, _ => 0
  | fuel + 1, n => if n = 0 then 0 else bitLength fuel (n / 2) + 1

/-- The binary64 nearest to `n / d` (ties to even) as mantissa and exponent;
`none` when the rounded value does not fit (it is `2^1024` or more). -/
def roundBinary64 (n d : Nat) : Option (Nat × Int) :=
  if n = 0 then some (0, -1074) else
  let e0 : Int := (bitLength n n : Int) - (bitLength d d : Int)
  let e : Int := if (scaleBy n d e0).2 ≤ (scaleBy n d e0).1 then e0 else e0 - 1
  let u : Int := max (e - 52) (-1074)
  let a := (scaleBy n d u).1
  let b := (scaleBy n d u).2
  let q := a / b
  let r := a % b
  let m := if 2 * r < b then q else if b < 2 * r then q + 1 else if q % 2 = 0 then q else q + 1
  let mu : Nat × Int := if m = 2 ^ 53 then (2 ^ 52, u + 1) else (m, u)
  if 971 < mu.2 then none else some mu

/-- The binary64 value of an accepted literal.  A decimal literal whose decimal
point lies more than 310 places right (330 places left) of its first digit
overflows (is zero), as in Go's `decimal.floatBits`. -/
def FloatLit.value (l : FloatLit) : Option (Nat × Int) :=
  if l.mantissa = 0 then some (0, -1074)
  else if l.hex then
    if 0 ≤ l.exp then roundBinary64 (l.mantissa * 2 ^ l.exp.toNat) 1
    else roundBinary64 l.mantissa (2 ^ (-l.exp).toNat)
  else if 310 < l.dp then none
  else if l.dp < -330 then some (0, -1074)
  else if 0 ≤ l.exp then roundBinary64 (l.mantissa * 10 ^ l.exp.toNat) 1
  else roundBinary64 l.mantissa (10 ^ (-l.exp).toNat)

/-- The binary64 `+0`. -/
def F64.zero : F64 := .finite false 0 (-1074)

/-- Binary64 addition, rounding to nearest, ties to even.  Adding a zero leaves
the other operand; otherwise the exact sum of two finite values is formed over
their smaller exponent and rounded.  An exact zero sum is `-0` only when both
operands are negative. -/
def F64.add : F64 → F64 → F64
  | .nan, _ => .nan
  | _, .nan => .nan
  | .inf a, .inf b => if a = b then .inf a else .nan
  | .inf a, .finite _ _ _ => .inf a
  | .finite _ _ _, .inf b => .inf b
  | .finite n1 m1 e1, .finite n2 m2 e2 =>
    if m1 = 0 ∧ m2 = 0 then .finite (n1 && n2) 0 (-1074)
    else if m1 = 0 then .finite n2 m2 e2
    else if m2 = 0 then .finite n1 m1 e1
    else
    let e : Int := min e1 e2
    let a : Int := (if n1 then -1 else 1) * ((m1 * 2 ^ (e1 - e).toNat : Nat) : Int)
    let b : Int := (if n2 then -1 else 1) * ((m2 * 2 ^ (e2 - e).toNat : Nat) : Int)
    let sum : Int := a + b
    if sum = 0 then .finite (n1 && n2) 0 (-1074)
    else
      let rounded :=
        if 0 ≤ e then roundBinary64 (sum.natAbs * 2 ^ e.toNat) 1
        else roundBinary64 sum.natAbs (2 ^ (-e).toNat)
      match rounded with
      | none => .inf (decide (sum < 0))
      | some (m, u) => .finite (decide (sum < 0)) m u

/-- Go's `strconv.ParseFloat(s, 64)` (Go 1.13 and later: hexadecimal literals and
digit-separating underscores are accepted), returning value and error as Go
does: `0` with `ErrSyntax`, `±Inf` with `ErrRange`. -/
def ParseFloat (s : String) : F64 × Option NumError :=
  match special s.toList with
  | some (f, n) => if n = s.toList.length then (f, none) else (F64.zero, some .ErrSyntax)
  | none =>
    match readFloat s.toList with
    | none => (F64.zero, some .ErrSyntax)
    | some l =>
      match l.value with
      | none => (.inf l.neg, some .ErrRange)
      | some (m, e) => (.finite l.neg m e, none)

/-- Go's `strconv.ParseBool(str)`. -/
def ParseBool (str : String) : Bool × Option NumError :=
  if str = "1" ∨ str = "t" ∨ str = "T" ∨ str = "TRUE" ∨ str = "true" ∨ str = "True" then
    (true, none)
  else if str = "0" ∨ str = "f" ∨ str = "F" ∨ str = "FALSE" ∨ str = "false" ∨ str = "False" then
    (false, none)
  else (false, some .ErrSyntax)

/-! ## Data model -/

/-- A Go `error`, by its message; `Option Err` is an `error` that may be `nil`. -/
abbrev Err := String

/-- The result of a Go call that may panic. -/
inductive Outcome (α : Type) where
  | ret (a : α)
  | panic (msg : String)
  deriving DecidableEq, Repr

/-- Go type `DeploymentStatus int`. -/
abbrev DeploymentStatus := Int

/-- Constant `Fetch DeploymentStatus = iota`. -/
def Fetch : DeploymentStatus := 0
/-- Constant `Error`. -/
def Error : DeploymentStatus := 1
/-- Constant `Finish`. -/
def Finish : DeploymentStatus := 2

/-- Go struct `ResourceStatus`; `ID` is the primary key of the embedded
`gorm.Model` (its timestamps are not read by any query in this file). -/
structure ResourceStatus where
  ID : Nat
  TableName : String
  Status : DeploymentStatus
  Description : String
  ExecutionID : Nat
  deriving DecidableEq, Repr

/-- Go struct `NResult`, the destination of the `SUM` scan. -/
structure NResult where
  N : F64
  deriving DecidableEq, Repr

/-- Go struct `Summary`. -/
structure Summary where
  ResourceName : String
  ResourceCount : Int
  TotalSpent : F64
  Status : DeploymentStatus
  Description : String
  deriving DecidableEq, Repr

/-- What `rows.Scan` stores in an `interface{}` destination: `nil` for SQL NULL,
a `[]uint8` for a text or blob cell, or another Go value, kept by the text that
`fmt.Sprintf("%v", v)` prints for it. -/
inductive SqlValue where
  | null
  | bytes (x : String)
  | other (rendered : String)
  deriving DecidableEq, Repr

/-- One row of a resource table: the `execution_id` the engine compares in
`WHERE execution_id = ?`, the `price_per_month` the engine sums (`none` is NULL;
read only when the table has that column), and the cells `select *` delivers,
one per column.  `price_per_month` is a DOUBLE column (gorm's type for a Go
`float64` field). -/
structure Row where
  execution_id : Nat
  price_per_month : Option F64
  values : List SqlValue
  deriving DecidableEq, Repr

/-- A resource table: column names in schema order and rows in scan order. -/
structure Table where
  columns : List String
  rows : List Row
  deriving DecidableEq, Repr

/-- The statements this file sends to the database. -/
inductive Query where
  | latestStatuses
  | count (table : String) (execution_id : Nat)
  | sum (table : String) (execution_id : Nat)
  | rows (table : String) (execution_id : Nat)
  | columns (table : String)
  | scan (table : String) (row : Nat)
  | showTables
  | dropTable (table : String)
  deriving DecidableEq, Repr

/-- The database behind `s.db`: the rows of `resource_statuses` that gorm sees
(those with `deleted_at` NULL), the resource tables by name, and the error, if
any, with which each statement fails (connection loss, locks, ...). -/
structure DB where
  resource_statuses : List ResourceStatus
  tables : List (String × Table)
  fault : Query → Option Err

/-- The table called `name`, when it exists. -/
def DB.table (db : DB) (name : String) : Option Table :=
  (db.tables.find? (fun p => decide (p.1 = name))).map (fun p => p.2)

/-! ## `GetSummary` -/

/-- Rows of the ledger with the given `table_name` and `execution_id`. -/
def groupOf (ledger : List ResourceStatus) (table : String) (execution : Nat) :
    List ResourceStatus :=
  ledger.filter (fun r => decide (r.TableName = table ∧ r.ExecutionID = execution))

/-- SQL `MAX(id)` over a group of rows. -/
def maxID (rs : List ResourceStatus) : Nat :=
  rs.foldl (fun m r => max m r.ID) 0

/-- The subquery `SELECT MAX(id) ... GROUP BY table_name, execution_id`: the
greatest id of every group (listed once per row of the group). -/
def maxIDs (ledger : List ResourceStatus) : List Nat :=
  ledger.map (fun r => maxID (groupOf ledger r.TableName r.ExecutionID))

/-- The query of `GetSummary`:
`SELECT status, description, table_name, execution_id ... WHERE id IN (subquery)`,
in ledger order.  `id` is not selected, so `ID` is left at its zero value. -/
def latestStatuses (ledger : List ResourceStatus) : List ResourceStatus :=
  (ledger.filter (fun r => decide (r.ID ∈ maxIDs ledger))).map (fun r => { r with ID := 0 })

/-- The statement `s.db.Table(table).Where("execution_id = ?", id).Count(&count)`:
the value left in `count` (it stays `0` when the statement fails) and gorm's error. -/
def Count (db : DB) (table : String) (execution_id : Nat) : Int × Option Err :=
  match db.fault (.count table execution_id) with
  | some err => (0, some err)
  | none =>
    match db.table table with
    | none => (0, some "no such table")
    | some t => (((t.rows.filter (fun r => decide (r.execution_id = execution_id))).length : Nat),
        none)

/-- The dialect's `HasColumn(table, column)`. -/
def HasColumn (db : DB) (table column : String) : Bool :=
  match db.table table with
  | none => false
  | some t => decide (column ∈ t.columns)

/-- SQL `SUM(price_per_month)` over the rows of one execution, as the engine
computes it for a DOUBLE column: binary64 additions in scan order, starting from
`+0`.  NULL cells are skipped and the `SUM` of no value is NULL, which leaves
the Go field at `0`. -/
def sumPrices (t : Table) (execution_id : Nat) : F64 :=
  ((t.rows.filter (fun r => decide (r.execution_id = execution_id))).filterMap
    (fun r => r.price_per_month)).foldl F64.add F64.zero

/-- The statement `Select("SUM(price_per_month) as n").Where(...).Scan(&n)`: the
value left in `n` (`n.N` stays `0` when the statement fails) and gorm's error. -/
def SumPricePerMonth (db : DB) (table : String) (execution_id : Nat) : NResult × Option Err :=
  match db.fault (.sum table execution_id) with
  | some err => (⟨F64.zero⟩, some err)
  | none =>
    match db.table table with
    | none => (⟨F64.zero⟩, some "no such table")
    | some t => (⟨sumPrices t execution_id⟩, none)

/-- Go `map[uint][]Summary`, as an association list with distinct keys. -/
abbrev SummaryMap := List (Nat × List Summary)

/-- Go `summary[k]`: the entry for `k`, `nil` when there is none. -/
def mapGet (m : SummaryMap) (k : Nat) : List Summary :=
  match m with
  | [] => []
  | (k1, v) :: rest => if k1 = k then v else mapGet rest k

/-- Go `summary[k] = v`. -/
def mapSet (m : SummaryMap) (k : Nat) (v : List Summary) : SummaryMap :=
  match m with
  | [] => [(k, v)]
  | (k1, v1) :: rest => if k1 = k then (k, v) :: rest else (k1, v1) :: mapSet rest k v

/-- The `Summary` that one iteration of the loop of `GetSummary` builds: both
statements' errors are dropped. -/
def summaryOf (db : DB) (resource : ResourceStatus) : Summary :=
  let count := (Count db resource.TableName resource.ExecutionID).1
  let n : NResult :=
    if HasColumn db resource.TableName "price_per_month" then
      (SumPricePerMonth db resource.TableName resource.ExecutionID).1
    else ⟨F64.zero⟩
  { ResourceName := resource.TableName
    ResourceCount := count
    TotalSpent := n.N
    Status := resource.Status
    Description := resource.Description }

/-- The body of `for _, resource := range *resourcesStatus`. -/
def summaryStep (db : DB) (summary : SummaryMap) (resource : ResourceStatus) : SummaryMap :=
  mapSet summary resource.ExecutionID
    (mapGet summary resource.ExecutionID ++ [summaryOf db resource])

/-- Go `(*MySQLManager).GetSummary(executionsID)`: the map and the error. -/
def GetSummary (db : DB) (executionsID : Nat) : SummaryMap × Option Err :=
  let _ := executionsID
  match db.fault .latestStatuses with
  | some err => ([], some err)
  | none => ((latestStatuses db.resource_statuses).foldl (summaryStep db) [], none)

/-! ## `GetTableData` -/

/-- A value stored in `map[string]interface{}`: a `float64`, a `bool`, a
`string`, or the nil interface. -/
inductive Value where
  | number (x : F64)
  | boolean (b : Bool)
  | string (s : String)
  | null
  deriving DecidableEq, Repr

/-- Go `map[string]interface{}`, as an association list with distinct keys. -/
abbrev Record := List (String × Value)

/-- Go `rowMap[k] = v`. -/
def recordSet (m : Record) (k : String) (v : Value) : Record :=
  match m with
  | [] => [(k, v)]
  | (k1, v1) :: rest => if k1 = k then (k, v) :: rest else (k1, v1) :: recordSet rest k v

/-- The type switch on the scanned value: a `[]uint8` is taken as is, anything
else goes through `fmt.Sprintf("%v", v.(interface{}))`, and that type assertion
panics when `v` is the nil interface. -/
def cellBytes : SqlValue → Outcome String
  | .bytes x => .ret x
  | .other rendered => .ret rendered
  | .null => .panic "interface conversion: interface is nil, not interface \x7b\x7d"

/-- What `fmt.Sprintf("%T", string(x))` prints. -/
def typeName (_ : String) : String := "string"

/-- The `if / else if / else if` chain on the text of a cell: the value stored
under the column (`none`: nothing is stored). -/
def coerce (x : String) : Option Value :=
  if (ParseFloat x).2 = none then some (.number (ParseFloat x).1)
  else if (ParseBool x).2 = none then some (.boolean (ParseBool x).1)
  else if "string" = typeName x then some (.string x)
  else none

/-- The loop `for i, v := range values` filling `rowMap`, over the columns
paired with the scanned values. -/
def fillRow : List (String × SqlValue) → Record → Outcome Record
  | [], rowMap => .ret rowMap
  | (column, v) :: rest, rowMap =>
    match cellBytes v with
    | .panic msg => .panic msg
    | .ret x =>
      match coerce x with
      | some val => fillRow rest (recordSet rowMap column val)
      | none => fillRow rest rowMap

/-- The record built for one scanned row. -/
def rowRecord (columns : List String) (r : Row) : Outcome Record :=
  fillRow (columns.zip r.values) []

/-- The loop `for rows.Next()`: `i` is the position of the next row in the result
set, `data` the records appended so far.  A row whose `Scan` fails is skipped. -/
def scanRows (db : DB) (name : String) (columns : List String) :
    Nat → List Row → List Record → Outcome (List Record)
  | _, [], data => .ret data
  | i, r :: rest, data =>
    match db.fault (.scan name i) with
    | some _ => scanRows db name columns (i + 1) rest data
    | none =>
      match rowRecord columns r with
      | .panic msg => .panic msg
      | .ret rowMap => scanRows db name columns (i + 1) rest (data ++ [rowMap])

/-- The statement `s.db.Table(name).Select("*").Where("execution_id = ?", id).Rows()`:
the table's columns and its rows of that execution, or the error. -/
def Rows (db : DB) (name : String) (executionsID : Nat) : Except Err (List String × List Row) :=
  match db.fault (.rows name executionsID) with
  | some err => .error err
  | none =>
    match db.table name with
    | none => .error "no such table"
    | some t => .ok (t.columns, t.rows.filter (fun r => decide (r.execution_id = executionsID)))

/-- Go `(*MySQLManager).GetTableData(name, executionsID)`.  The `err` returned
after the loop is the one of `rows.Columns()`, which is `nil` there. -/
def GetTableData (db : DB) (name : String) (executionsID : Nat) :
    Outcome (List Record × Option Err) :=
  match Rows db name executionsID with
  | .error err => .ret ([], some err)
  | .ok (columns, rows) =>
    match db.fault (.columns name) with
    | some err => .ret ([], some err)
    | none =>
      match scanRows db name columns 0 rows [] with
      | .panic msg => .panic msg
      | .ret data => .ret (data, none)

/-! ## `GetAllTables` and `ClearTables` -/

/-- Go `(*MySQLManager).GetAllTables()`: `show tables`, plucked into `names`. -/
def GetAllTables (db : DB) : List String × Option Err :=
  match db.fault .showTables with
  | some err => ([], some err)
  | none => (db.tables.map (fun p => p.1), none)

/-- The statement `s.db.DropTable(table)` of gorm (not the method
`MySQLManager.DropTable`): the database afterwards and the error. -/
def gormDropTable (db : DB) (table : String) : DB × Option Err :=
  match db.fault (.dropTable table) with
  | some err => (db, some err)
  | none =>
    match db.table table with
    | none => (db, some "unknown table")
    | some _ => ({ db with tables := db.tables.filter (fun p => decide (p.1 ≠ table)) }, none)

/-- The loop of `ClearTables`: the database and the `DropTable` calls made so
far, each with its result (a non-nil result is logged, nothing else). -/
def clearLoop : List String → DB × List (String × Option Err) → DB × List (String × Option Err)
  | [], st => st
  | table :: rest, st =>
    clearLoop rest ((gormDropTable st.1 table).1, st.2 ++ [(table, (gormDropTable st.1 table).2)])

/-- Go `(*MySQLManager).ClearTables()`: the database afterwards and the
`DropTable` calls it made, in order.  The error of `GetAllTables` is only logged. -/
def ClearTables (db : DB) : DB × List (String × Option Err) :=
  clearLoop (GetAllTables db).1 (db, [])

/-- The rows of a result set whose `Scan` succeeds, `i` being the position of
the first of them. -/
def readable (db : DB) (name : String) : Nat → List Row → List Row
  | _, [] => []
  | i, r :: rest =>
    match db.fault (.scan name i) with
    | some _ => readable db name (i + 1) rest
    | none => r :: readable db name (i + 1) rest

/-! ## Example databases -/

/-- A table with a `price_per_month` column: three rows of execution 7 (prices
100, 20.5 and NULL), one of execution 8 (price 1). -/
def ec2Table : Table :=
  { columns := ["execution_id", "price_per_month", "name"]
    rows :=
      [ ⟨7, some (.finite false 7036874417766400 (-46)),
          [.bytes "7", .bytes "100", .bytes "web"]⟩,
        ⟨7, some (.finite false 5770237022568448 (-48)),
          [.bytes "7", .bytes "20.5", .bytes "T"]⟩,
        ⟨7, none, [.bytes "7", .bytes "", .bytes " 42"]⟩,
        ⟨8, some (.finite false 4503599627370496 (-52)),
          [.bytes "8", .bytes "1", .bytes "db"]⟩ ] }

/-- A table without a `price_per_month` column. -/
def lambdaTable : Table :=
  { columns := ["execution_id", "name"]
    rows := [⟨7, none, [.other "7", .bytes "fn"]⟩] }

/-- The ledger of the specification's example: two records of the pair
`(ec2, 7)` with ids 1 and 5, and one record of `(lambda, 7)`. -/
def exampleLedger : List ResourceStatus :=
  [ ⟨1, "ec2", Fetch, "start", 7⟩, ⟨5, "ec2", Finish, "ok", 7⟩, ⟨6, "lambda", Finish, "ok", 7⟩ ]

/-- A database on which every statement succeeds. -/
def dbHealthy : DB :=
  { resource_statuses := exampleLedger
    tables := [("ec2", ec2Table), ("lambda", lambdaTable)]
    fault := fun _ => none }

/-- A database whose ledger names `lambda` only, when counting the rows of
`lambda` for execution 7 fails. -/
def dbCountFails : DB :=
  { resource_statuses := [⟨6, "lambda", Finish, "ok", 7⟩]
    tables := [("ec2", ec2Table), ("lambda", lambdaTable)]
    fault := fun q => if q = .count "lambda" 7 then some "invalid connection" else none }

/-- A database whose ledger names `ec2` only, when summing `price_per_month` of
`ec2` for execution 7 fails. -/
def dbSumFails : DB :=
  { resource_statuses := [⟨5, "ec2", Finish, "ok", 7⟩]
    tables := [("ec2", ec2Table), ("lambda", lambdaTable)]
    fault := fun q => if q = .sum "ec2" 7 then some "invalid connection" else none }

/-- The same database when scanning the first row of a result set of `ec2` fails. -/
def dbScanFails : DB :=
  { dbHealthy with
    fault := fun q => if q = .scan "ec2" 0 then some "scan failed" else none }

/-- A database whose table `ec2` has a row with a NULL `name`. -/
def dbNullCell : DB :=
  { resource_statuses := []
    tables := [("ec2", ⟨["execution_id", "name"], [⟨7, none, [.bytes "7", .null]⟩]⟩)]
    fault := fun _ => none }

/-- A database whose table `ebs` has two rows of execution 3, with prices 0.1
and 0.2 (the nearest binary64 values). -/
def dbCents : DB :=
  { resource_statuses := [⟨9, "ebs", Finish, "ok", 3⟩]
    tables :=
      [("ebs", ⟨["execution_id", "price_per_month"],
        [ ⟨3, some (.finite false 7205759403792794 (-56)), [.bytes "3", .bytes "0.1"]⟩,
          ⟨3, some (.finite false 7205759403792794 (-55)), [.bytes "3", .bytes "0.2"]⟩ ]⟩)]
    fault := fun _ => none }

/-- The same database as `dbHealthy` when `show tables` fails (as it does on a
dialect without that statement). -/
def dbListFails : DB :=
  { dbHealthy with
    fault := fun q => if q = .showTables then some "syntax error" else none }

/-- The same database as `dbHealthy` when dropping `ec2` fails. -/
def dbDropFails : DB :=
  { dbHealthy with
    fault := fun q => if q = .dropTable "ec2" then some "foreign key constraint" else none }

/-! ## Lemmas on the summary map -/

theorem mapGet_mapSet (m : SummaryMap) (k k1 : Nat) (v : List Summary) :
    mapGet (mapSet m k v) k1 = if k = k1 then v else mapGet m k1 := by
  induction m with
  | nil => simp [mapSet, mapGet]
  | cons p rest ih =>
    obtain ⟨k2, v2⟩ := p
    simp only [mapSet, mapGet]
    split_ifs <;> simp_all [mapGet]

theorem mapGet_foldl (db : DB) (rs : List ResourceStatus) (m : SummaryMap) (e : Nat) :
    mapGet (rs.foldl (summaryStep db) m) e =
      mapGet m e ++ (rs.filter (fun r => decide (r.ExecutionID = e))).map (summaryOf db) := by
  induction rs generalizing m with
  | nil => simp
  | cons r rest ih =>
    rw [List.foldl_cons, ih, summaryStep, mapGet_mapSet]
    by_cases h : r.ExecutionID = e
    · simp [h, List.filter_cons]
    · simp [h, List.filter_cons]

/-- The entry of the result of `GetSummary` for execution `e`, when the ledger
lookup succeeds. -/
theorem mapGet_GetSummary (db : DB) (x e : Nat) (h : db.fault .latestStatuses = none) :
    mapGet (GetSummary db x).1 e =
      ((latestStatuses db.resource_statuses).filter
        (fun r => decide (r.ExecutionID = e))).map (summaryOf db) := by
  simp [GetSummary, h, mapGet_foldl, mapGet]

theorem GetSummary_of_fault (db : DB) (x : Nat) (err : Err)
    (h : db.fault .latestStatuses = some err) : GetSummary db x = ([], some err) := by
  simp [GetSummary, h]

theorem GetSummary_err_of_ok (db : DB) (x : Nat) (h : db.fault .latestStatuses = none) :
    (GetSummary db x).2 = none := by
  simp [GetSummary, h]

/-- Every `Summary` in the result comes from a latest status record of the same
execution. -/
theorem mem_GetSummary (db : DB) (x e : Nat) (s : Summary)
    (hs : s ∈ mapGet (GetSummary db x).1 e) :
    db.fault .latestStatuses = none ∧
      ∃ r ∈ latestStatuses db.resource_statuses, r.ExecutionID = e ∧ s = summaryOf db r := by
  cases h : db.fault .latestStatuses with
  | some err =>
    rw [GetSummary_of_fault db x err h] at hs
    simp [mapGet] at hs
  | none =>
    rw [mapGet_GetSummary db x e h] at hs
    simp only [List.mem_map, List.mem_filter, decide_eq_true_eq] at hs
    obtain ⟨r, ⟨hr, he⟩, rfl⟩ := hs
    exact ⟨rfl, r, hr, he, rfl⟩

/-! ## Lemmas on the latest-status query -/

theorem foldl_max_ge (rs : List ResourceStatus) (a : Nat) :
    a ≤ rs.foldl (fun m r => max m r.ID) a := by
  induction rs generalizing a with
  | nil => simp
  | cons r rest ih => exact le_trans (le_max_left a r.ID) (ih _)

theorem le_foldl_max (rs : List ResourceStatus) (a : Nat) (r : ResourceStatus) (hr : r ∈ rs) :
    r.ID ≤ rs.foldl (fun m r => max m r.ID) a := by
  induction rs generalizing a with
  | nil => simp at hr
  | cons r1 rest ih =>
    rcases List.mem_cons.1 hr with h | h
    · subst h
      exact le_trans (le_max_right a r.ID) (foldl_max_ge rest _)
    · exact ih _ h

theorem foldl_max_attained (rs : List ResourceStatus) (a : Nat) :
    rs.foldl (fun m r => max m r.ID) a = a ∨
      ∃ r ∈ rs, r.ID = rs.foldl (fun m r => max m r.ID) a := by
  induction rs generalizing a with
  | nil => simp
  | cons r1 rest ih =>
    rcases ih (max a r1.ID) with h | ⟨r, hr, h⟩
    · rcases le_total a r1.ID with h1 | h1
      · right
        refine ⟨r1, List.mem_cons_self _ _, ?_⟩
        rw [List.foldl_cons, h, max_eq_right h1]
      · left
        rw [List.foldl_cons, h, max_eq_left h1]
    · exact Or.inr ⟨r, List.mem_cons_of_mem _ hr, h⟩

theorem le_maxID (rs : List ResourceStatus) (r : ResourceStatus) (hr : r ∈ rs) :
    r.ID ≤ maxID rs :=
  le_foldl_max rs 0 r hr

theorem maxID_attained (rs : List ResourceStatus) (hne : rs ≠ []) :
    ∃ r ∈ rs, r.ID = maxID rs := by
  rcases foldl_max_attained rs 0 with h | h
  · obtain ⟨r, hr⟩ := List.exists_mem_of_ne_nil rs hne
    refine ⟨r, hr, ?_⟩
    have := le_maxID rs r hr
    unfold maxID at this ⊢
    omega
  · exact h

theorem mem_groupOf (ledger : List ResourceStatus) (t : String) (e : Nat) (r : ResourceStatus) :
    r ∈ groupOf ledger t e ↔ r ∈ ledger ∧ r.TableName = t ∧ r.ExecutionID = e := by
  simp [groupOf]

theorem id_injective (ledger : List ResourceStatus) (hn : (ledger.map (fun r => r.ID)).Nodup)
    (a b : ResourceStatus) (ha : a ∈ ledger) (hb : b ∈ ledger) (h : a.ID = b.ID) : a = b :=
  List.inj_on_of_nodup_map hn ha hb h

/-- With unique ids, a row is selected by the `IN` test exactly when it carries
the greatest id of its own group. -/
theorem mem_maxIDs_iff (ledger : List ResourceStatus)
    (hn : (ledger.map (fun r => r.ID)).Nodup) (r : ResourceStatus) (hr : r ∈ ledger) :
    r.ID ∈ maxIDs ledger ↔ r.ID = maxID (groupOf ledger r.TableName r.ExecutionID) := by
  constructor
  · intro h
    simp only [maxIDs, List.mem_map] at h
    obtain ⟨r1, hr1, h1⟩ := h
    have hne : groupOf ledger r1.TableName r1.ExecutionID ≠ [] :=
      List.ne_nil_of_mem ((mem_groupOf ledger _ _ r1).2 ⟨hr1, rfl, rfl⟩)
    obtain ⟨r2, hr2, h2⟩ := maxID_attained _ hne
    have hr2' := (mem_groupOf ledger _ _ r2).1 hr2
    have : r2 = r := id_injective ledger hn r2 r hr2'.1 hr (by rw [h2, h1])
    subst this
    rw [hr2'.2.1, hr2'.2.2, h1]
  · intro h
    simp only [maxIDs, List.mem_map]
    exact ⟨r, hr, h.symm⟩

/-- The rows of the pair `(t, e)` that the query of `GetSummary` selects. -/
theorem latest_of_pair (ledger : List ResourceStatus)
    (hn : (ledger.map (fun r => r.ID)).Nodup) (t : String) (e : Nat)
    (r : ResourceStatus) (hr : r ∈ ledger) (ht : r.TableName = t) (he : r.ExecutionID = e)
    (hmax : r.ID = maxID (groupOf ledger t e)) :
    ledger.filter (fun a => decide (a.ID ∈ maxIDs ledger) &&
      decide (a.TableName = t ∧ a.ExecutionID = e)) = [r] := by
  have hnd : ledger.Nodup := List.Nodup.of_map _ hn
  have hcongr : ledger.filter (fun a => decide (a.ID ∈ maxIDs ledger) &&
      decide (a.TableName = t ∧ a.ExecutionID = e)) = ledger.filter (fun a => a == r) := by
    apply List.filter_congr
    intro a ha
    by_cases hpair : a.TableName = t ∧ a.ExecutionID = e
    · have hiff := mem_maxIDs_iff ledger hn a ha
      rw [hpair.1, hpair.2] at hiff
      by_cases hid : a.ID = maxID (groupOf ledger t e)
      · have : a = r := id_injective ledger hn a r ha hr (by rw [hid, hmax])
        subst this
        simp [hiff.2 hid, hpair]
      · have hne : a ≠ r := by
          intro h
          subst h
          exact hid hmax
        have hnot : a.ID ∉ maxIDs ledger := fun h => hid (hiff.1 h)
        simp [hnot, hne]
    · have hne : a ≠ r := by
        intro h
        subst h
        exact hpair ⟨ht, he⟩
      simp [hpair, hne]
  rw [hcongr, List.filter_beq, List.count_eq_one_of_mem hnd hr]
  rfl

theorem latest_of_absent (ledger : List ResourceStatus) (t : String) (e : Nat)
    (habs : ¬ ∃ r ∈ ledger, r.TableName = t ∧ r.ExecutionID = e) :
    ledger.filter (fun a => decide (a.ID ∈ maxIDs ledger) &&
      decide (a.TableName = t ∧ a.ExecutionID = e)) = [] := by
  rw [List.filter_eq_nil_iff]
  intro a ha
  have : ¬ (a.TableName = t ∧ a.ExecutionID = e) := fun h => habs ⟨a, ha, h⟩
  simp [this]

/-- The summaries of table `t` in the entry for execution `e`, in terms of the
rows the query selects. -/
theorem summaries_of_pair (db : DB) (x : Nat) (t : String) (e : Nat)
    (h : db.fault .latestStatuses = none) :
    (mapGet (GetSummary db x).1 e).filter (fun s => decide (s.ResourceName = t)) =
      (db.resource_statuses.filter (fun a => decide (a.ID ∈ maxIDs db.resource_statuses) &&
        decide (a.TableName = t ∧ a.ExecutionID = e))).map
        (fun a => summaryOf db { a with ID := 0 }) := by
  rw [mapGet_GetSummary db x e h, latestStatuses]
  simp only [List.filter_map, List.map_map, List.filter_filter]
  congr 1
  apply List.filter_congr
  intro a _
  simp only [summaryOf, Function.comp, Bool.decide_and]
  cases decide (a.TableName = t) <;> cases decide (a.ExecutionID = e) <;> simp

/-! ## `GetSummary`: the claims -/

/-- C2: when the ledger lookup succeeds and ids are unique, then for every value
of the `executionsID` argument and every pair `(t, e)`: if the ledger has a record
for the pair, the entry for key `e` holds exactly one `Summary` named `t`, and its
`Status` and `Description` are those of the record of the pair with the greatest
id; if the ledger has no record for the pair, the entry for `e` holds no `Summary`
named `t`. -/
theorem getSummary_one_summary_per_pair (db : DB) (executionsID : Nat)
    (hfind : db.fault .latestStatuses = none)
    (hids : (db.resource_statuses.map (fun r => r.ID)).Nodup) :
    (GetSummary db executionsID).2 = none ∧
    ∀ (t : String) (e : Nat),
      ((∃ r ∈ db.resource_statuses, r.TableName = t ∧ r.ExecutionID = e) →
        ∃ s r,
          (mapGet (GetSummary db executionsID).1 e).filter
            (fun s => decide (s.ResourceName = t)) = [s] ∧
          r ∈ db.resource_statuses ∧ r.TableName = t ∧ r.ExecutionID = e ∧
          (∀ r1 ∈ db.resource_statuses, r1.TableName = t → r1.ExecutionID = e → r1.ID ≤ r.ID) ∧
          s.ResourceName = t ∧ s.Status = r.Status ∧ s.Description = r.Description) ∧
      ((¬ ∃ r ∈ db.resource_statuses, r.TableName = t ∧ r.ExecutionID = e) →
        (mapGet (GetSummary db executionsID).1 e).filter
          (fun s => decide (s.ResourceName = t)) = []) := by
  refine ⟨GetSummary_err_of_ok db executionsID hfind, ?_⟩
  intro t e
  constructor
  · rintro ⟨r0, hr0, ht0, he0⟩
    have hne : groupOf db.resource_statuses t e ≠ [] :=
      List.ne_nil_of_mem ((mem_groupOf _ t e r0).2 ⟨hr0, ht0, he0⟩)
    obtain ⟨r, hr, hmax⟩ := maxID_attained _ hne
    have hr' := (mem_groupOf _ t e r).1 hr
    refine ⟨summaryOf db { r with ID := 0 }, r, ?_, hr'.1, hr'.2.1, hr'.2.2, ?_, ?_, rfl, rfl⟩
    · rw [summaries_of_pair db executionsID t e hfind,
        latest_of_pair db.resource_statuses hids t e r hr'.1 hr'.2.1 hr'.2.2 hmax]
      rfl
    · intro r1 hr1 ht1 he1
      rw [hmax]
      exact le_maxID _ r1 ((mem_groupOf _ t e r1).2 ⟨hr1, ht1, he1⟩)
    · exact hr'.2.1
  · intro habs
    rw [summaries_of_pair db executionsID t e hfind,
      latest_of_absent db.resource_statuses t e habs]
    rfl

/-- C3: every `Summary` in the entry for execution `e` whose count statement
succeeds has `ResourceCount` equal to the number of rows of the table named
`ResourceName` whose `execution_id` is `e`. -/
theorem getSummary_resourceCount (db : DB) (executionsID e : Nat) (s : Summary)
    (hs : s ∈ mapGet (GetSummary db executionsID).1 e)
    (hcount : (Count db s.ResourceName e).2 = none) :
    ∃ t, db.table s.ResourceName = some t ∧
      s.ResourceCount = ((t.rows.filter (fun r => decide (r.execution_id = e))).length : Nat) := by
  obtain ⟨_, r, _, he, rfl⟩ := mem_GetSummary db executionsID e s hs
  subst he
  simp only [summaryOf] at hcount ⊢
  unfold Count at hcount ⊢
  cases hf : db.fault (.count r.TableName r.ExecutionID) with
  | some err => simp [hf] at hcount
  | none =>
    cases ht : db.table r.TableName with
    | none => simp [hf, ht] at hcount
    | some t => exact ⟨t, rfl, by simp⟩

/-- C1, as the code has it: `GetSummary` returns an error, with an empty map,
exactly when the ledger lookup fails.  When the lookup succeeds the error is nil
and every latest status record has its `Summary` in the entry of its execution;
the entry of an execution holds those summaries and no other; a failing count
statement leaves `ResourceCount` at `0` and a failing sum statement leaves
`TotalSpent` at `0`. -/
theorem getSummary_error_only_from_lookup (db : DB) (executionsID : Nat) :
    (∀ err, db.fault .latestStatuses = some err →
      GetSummary db executionsID = ([], some err)) ∧
    (db.fault .latestStatuses = none →
      (GetSummary db executionsID).2 = none ∧
      (∀ e, mapGet (GetSummary db executionsID).1 e =
        ((latestStatuses db.resource_statuses).filter
          (fun r => decide (r.ExecutionID = e))).map (summaryOf db)) ∧
      ∀ r ∈ latestStatuses db.resource_statuses,
        summaryOf db r ∈ mapGet (GetSummary db executionsID).1 r.ExecutionID ∧
        ((Count db r.TableName r.ExecutionID).2 ≠ none → (summaryOf db r).ResourceCount = 0) ∧
        ((SumPricePerMonth db r.TableName r.ExecutionID).2 ≠ none →
          (summaryOf db r).TotalSpent = F64.zero)) := by
  refine ⟨fun err h => GetSummary_of_fault db executionsID err h, fun h => ?_⟩
  refine ⟨GetSummary_err_of_ok db executionsID h,
    fun e => mapGet_GetSummary db executionsID e h, fun r hr => ⟨?_, ?_, ?_⟩⟩
  · rw [mapGet_GetSummary db executionsID r.ExecutionID h]
    exact List.mem_map_of_mem _ (List.mem_filter.2 ⟨hr, by simp⟩)
  · intro hc
    simp only [summaryOf]
    unfold Count at hc ⊢
    cases hf : db.fault (.count r.TableName r.ExecutionID) with
    | some err => simp
    | none =>
      cases ht : db.table r.TableName with
      | none => simp
      | some t => simp [hf, ht] at hc
  · intro hc
    simp only [summaryOf]
    unfold SumPricePerMonth at hc ⊢
    cases hf : db.fault (.sum r.TableName r.ExecutionID) with
    | some err => simp
    | none =>
      cases ht : db.table r.TableName with
      | none => simp
      | some t => simp [hf, ht] at hc

/-- C4, as the code has it: for every `Summary` in the result the error of
`GetSummary` is nil; `TotalSpent` is `0` when the table has no `price_per_month`
column; and when it has the column and the sum statement succeeds, `TotalSpent`
is the binary64 sum of `price_per_month` over the table's rows of the Summary's
execution. -/
theorem getSummary_totalSpent (db : DB) (executionsID e : Nat) (s : Summary)
    (hs : s ∈ mapGet (GetSummary db executionsID).1 e) :
    (GetSummary db executionsID).2 = none ∧
    (HasColumn db s.ResourceName "price_per_month" = false → s.TotalSpent = F64.zero) ∧
    (HasColumn db s.ResourceName "price_per_month" = true →
      (SumPricePerMonth db s.ResourceName e).2 = none →
      ∃ t, db.table s.ResourceName = some t ∧ s.TotalSpent = sumPrices t e) := by
  obtain ⟨hfind, r, _, he, rfl⟩ := mem_GetSummary db executionsID e s hs
  subst he
  refine ⟨GetSummary_err_of_ok db executionsID hfind, ?_, ?_⟩
  · intro hcol
    have hcol' : HasColumn db r.TableName "price_per_month" = false := hcol
    simp [summaryOf, hcol']
  · intro hcol hsum
    have hcol' : HasColumn db r.TableName "price_per_month" = true := hcol
    have hsum' : (SumPricePerMonth db r.TableName r.ExecutionID).2 = none := hsum
    simp only [summaryOf, hcol', if_true]
    unfold SumPricePerMonth at hsum' ⊢
    cases hf : db.fault (.sum r.TableName r.ExecutionID) with
    | some err => simp [hf] at hsum'
    | none =>
      cases ht : db.table r.TableName with
      | none => simp [hf, ht] at hsum'
      | some t => exact ⟨t, rfl, rfl⟩

/-! ## `GetTableData`: lemmas -/

theorem fillRow_ret (l : List (String × SqlValue)) (m : Record)
    (h : ∀ p ∈ l, p.2 ≠ SqlValue.null) : ∃ rec, fillRow l m = .ret rec := by
  induction l generalizing m with
  | nil => exact ⟨m, rfl⟩
  | cons p rest ih =>
    obtain ⟨column, v⟩ := p
    have hrest : ∀ q ∈ rest, q.2 ≠ SqlValue.null := fun q hq => h q (List.mem_cons_of_mem _ hq)
    have hv : v ≠ SqlValue.null := h (column, v) (List.mem_cons_self _ _)
    cases v with
    | null => exact absurd rfl hv
    | bytes x =>
      simp only [fillRow, cellBytes]
      cases coerce x with
      | none => exact ih m hrest
      | some val => exact ih _ hrest
    | other x =>
      simp only [fillRow, cellBytes]
      cases coerce x with
      | none => exact ih m hrest
      | some val => exact ih _ hrest

theorem rowRecord_ret (columns : List String) (r : Row) (h : SqlValue.null ∉ r.values) :
    ∃ rec, rowRecord columns r = .ret rec := by
  apply fillRow_ret
  intro p hp hnull
  apply h
  have := (List.of_mem_zip (a := p.1) (b := p.2) hp).2
  rwa [hnull] at this

theorem scanRows_ret (db : DB) (name : String) (columns : List String) (i : Nat)
    (rows : List Row) (data out : List Record)
    (h : scanRows db name columns i rows data = .ret out) :
    ∃ recs, out = data ++ recs ∧
      List.Forall₂ (fun r rec => rowRecord columns r = .ret rec) (readable db name i rows) recs := by
  induction rows generalizing i data with
  | nil =>
    simp only [scanRows, Outcome.ret.injEq] at h
    exact ⟨[], by simp [h], by simp [readable]⟩
  | cons r rest ih =>
    simp only [scanRows, readable] at h ⊢
    cases hf : db.fault (.scan name i) with
    | some err =>
      simp only [hf] at h ⊢
      exact ih _ _ h
    | none =>
      simp only [hf] at h ⊢
      cases hrec : rowRecord columns r with
      | panic msg => simp [hrec] at h
      | ret rowMap =>
        simp only [hrec] at h
        obtain ⟨recs, hout, hall⟩ := ih _ _ h
        exact ⟨rowMap :: recs, by simp [hout], List.Forall₂.cons hrec hall⟩

theorem scanRows_total (db : DB) (name : String) (columns : List String) (i : Nat)
    (rows : List Row) (data : List Record)
    (h : ∀ r ∈ readable db name i rows, SqlValue.null ∉ r.values) :
    ∃ out, scanRows db name columns i rows data = .ret out := by
  induction rows generalizing i data with
  | nil => exact ⟨data, rfl⟩
  | cons r rest ih =>
    simp only [scanRows, readable] at h ⊢
    cases hf : db.fault (.scan name i) with
    | some err =>
      simp only [hf] at h ⊢
      exact ih _ _ h
    | none =>
      simp only [hf] at h ⊢
      obtain ⟨rec, hrec⟩ := rowRecord_ret columns r (h r (List.mem_cons_self _ _))
      simp only [hrec]
      exact ih _ _ (fun q hq => h q (List.mem_cons_of_mem _ hq))

theorem GetTableData_of_ok (db : DB) (name : String) (id : Nat) (columns : List String)
    (rows : List Row) (hrows : Rows db name id = .ok (columns, rows))
    (hcols : db.fault (.columns name) = none) :
    GetTableData db name id =
      match scanRows db name columns 0 rows [] with
      | .panic msg => .panic msg
      | .ret data => .ret (data, none) := by
  simp [GetTableData, hrows, hcols]

/-! ## `GetTableData`: the claims -/

/-- C5, at a failing input: a row with a NULL cell makes `GetTableData` panic
(the type assertion in the default branch of the type switch fails on the nil
interface), as does filling a record from any cells one of which is NULL; and
no text at all is coerced to the null value. -/
theorem getTableData_null_cell_panics :
    GetTableData dbNullCell "ec2" 7 =
      .panic "interface conversion: interface is nil, not interface \x7b\x7d" ∧
    (∀ (cells : List (String × SqlValue)) (rowMap : Record) (column : String),
      (column, SqlValue.null) ∈ cells → ∃ msg, fillRow cells rowMap = .panic msg) ∧
    ∀ x : String, coerce x ≠ some Value.null := by
  refine ⟨by decide, ?_, ?_⟩
  · intro cells
    induction cells with
    | nil => intro rowMap column h; simp at h
    | cons p rest ih =>
      intro rowMap column h
      obtain ⟨c, v⟩ := p
      cases v with
      | null => exact ⟨_, rfl⟩
      | bytes x =>
        have hrest : (column, SqlValue.null) ∈ rest := by simpa using h
        simp only [fillRow, cellBytes]
        cases coerce x with
        | none => exact ih rowMap column hrest
        | some val => exact ih _ column hrest
      | other x =>
        have hrest : (column, SqlValue.null) ∈ rest := by simpa using h
        simp only [fillRow, cellBytes]
        cases coerce x with
        | none => exact ih rowMap column hrest
        | some val => exact ih _ column hrest
  · intro x
    unfold coerce
    split_ifs <;> simp

/-- C6: whenever `ParseFloat` accepts the text of a cell with value `x`, the
cell is stored as the number `x`, also when `ParseBool` accepts the text too:
`1` and `0` become the numbers one and zero, `42` and `-3.14` become numbers. -/
theorem coerce_number_wins :
    (∀ (s : String) (x : F64), ParseFloat s = (x, none) → coerce s = some (.number x)) ∧
    (∀ (column s : String) (x : F64) (e : Nat) (p : Option F64), ParseFloat s = (x, none) →
      rowRecord [column] ⟨e, p, [.bytes s]⟩ = .ret [(column, .number x)]) ∧
    ((ParseBool "1").2 = none ∧ coerce "1" = some (.number (.finite false (2 ^ 52) (-52))) ∧
      F64.toRat (.finite false (2 ^ 52) (-52)) = 1) ∧
    ((ParseBool "0").2 = none ∧ coerce "0" = some (.number (.finite false 0 (-1074))) ∧
      F64.toRat (.finite false 0 (-1074)) = 0) ∧
    (coerce "42" = some (.number (.finite false 5910974510923776 (-47))) ∧
      F64.toRat (.finite false 5910974510923776 (-47)) = 42) ∧
    coerce "-3.14" = some (.number (.finite true 7070651414971679 (-51))) := by
  have hmain : ∀ (s : String) (x : F64), ParseFloat s = (x, none) →
      coerce s = some (.number x) := by
    intro s x h
    simp [coerce, h]
  refine ⟨hmain, ?_, ⟨by decide, by decide, ?_⟩, ⟨by decide, by decide, ?_⟩,
    ⟨by decide, ?_⟩, by decide⟩
  · intro column s x e p h
    simp [rowRecord, fillRow, cellBytes, hmain s x h, recordSet]
  · norm_num [F64.toRat]
  · norm_num [F64.toRat]
  · norm_num [F64.toRat]

/-- C7, as the code has it: a text that `ParseFloat` rejects and that is none of
the twelve texts `ParseBool` accepts is stored as a string, unchanged. -/
theorem coerce_string_otherwise (s : String) (hfloat : (ParseFloat s).2 ≠ none)
    (hbool : s ∉ ["1", "t", "T", "TRUE", "true", "True", "0", "f", "F", "FALSE", "false", "False"]) :
    coerce s = some (.string s) := by
  simp only [List.mem_cons, List.mem_singleton, List.not_mem_nil, or_false, not_or] at hbool
  obtain ⟨h1, h2, h3, h4, h5, h6, h7, h8, h9, h10, h11, h12⟩ := hbool
  simp [coerce, hfloat, ParseBool, typeName, h1, h2, h3, h4, h5, h6, h7, h8, h9, h10, h11, h12]

/-- C8, as the code has it: an error is returned only when the row query or the
column listing fails, and then with no record; once both succeed the error is
nil whatever scans fail, and (no read row holding a NULL) there is one record
per row whose scan succeeded. -/
theorem getTableData_skips_failed_scans (db : DB) (name : String) (executionsID : Nat) :
    (∀ data err, GetTableData db name executionsID = .ret (data, some err) →
      data = [] ∧
        (Rows db name executionsID = .error err ∨ db.fault (.columns name) = some err)) ∧
    (∀ columns rows, Rows db name executionsID = .ok (columns, rows) →
      db.fault (.columns name) = none →
      (∀ r ∈ readable db name 0 rows, SqlValue.null ∉ r.values) →
      ∃ data, GetTableData db name executionsID = .ret (data, none) ∧
        data.length = (readable db name 0 rows).length) := by
  constructor
  · intro data err h
    unfold GetTableData at h
    cases hrows : Rows db name executionsID with
    | error e =>
      simp only [hrows, Outcome.ret.injEq, Prod.mk.injEq, Option.some.injEq] at h
      exact ⟨h.1.symm, Or.inl (by rw [h.2])⟩
    | ok cr =>
      obtain ⟨columns, rows⟩ := cr
      simp only [hrows] at h
      cases hcols : db.fault (.columns name) with
      | some e =>
        simp only [hcols, Outcome.ret.injEq, Prod.mk.injEq, Option.some.injEq] at h
        exact ⟨h.1.symm, Or.inr (by rw [h.2])⟩
      | none =>
        simp only [hcols] at h
        cases hscan : scanRows db name columns 0 rows [] with
        | panic msg => simp [hscan] at h
        | ret out => simp [hscan] at h
  · intro columns rows hrows hcols hnull
    obtain ⟨out, hout⟩ := scanRows_total db name columns 0 rows [] hnull
    obtain ⟨recs, hrecs, hall⟩ := scanRows_ret db name columns 0 rows [] out hout
    refine ⟨out, ?_, ?_⟩
    · rw [GetTableData_of_ok db name executionsID columns rows hrows hcols, hout]
    · rw [hrecs, List.nil_append, hall.length_eq]

/-- C9: when the row query or the column listing fails, `GetTableData` returns
that error and no record; when it returns a nil error, the records are, in row
order, those of the rows of the table whose `execution_id` is the supplied id
and whose scan succeeded, one record per row; and it does return a nil error
when both statements succeed and no such row holds a NULL. -/
theorem getTableData_rows_of_execution (db : DB) (name : String) (executionsID : Nat) :
    (∀ err, Rows db name executionsID = .error err →
      GetTableData db name executionsID = .ret ([], some err)) ∧
    (∀ cr err, Rows db name executionsID = .ok cr → db.fault (.columns name) = some err →
      GetTableData db name executionsID = .ret ([], some err)) ∧
    (∀ data, GetTableData db name executionsID = .ret (data, none) →
      ∃ t, db.table name = some t ∧
        List.Forall₂ (fun r rec => rowRecord t.columns r = .ret rec)
          (readable db name 0
            (t.rows.filter (fun r => decide (r.execution_id = executionsID)))) data) ∧
    (∀ t, db.fault (.rows name executionsID) = none → db.table name = some t →
      db.fault (.columns name) = none → (∀ r ∈ t.rows, SqlValue.null ∉ r.values) →
      ∃ data, GetTableData db name executionsID = .ret (data, none)) := by
  refine ⟨?_, ?_, ?_, ?_⟩
  · intro err h
    simp [GetTableData, h]
  · intro cr err h hcols
    obtain ⟨columns, rows⟩ := cr
    simp [GetTableData, h, hcols]
  · intro data h
    unfold GetTableData at h
    cases hrows : Rows db name executionsID with
    | error e => simp [hrows] at h
    | ok cr =>
      obtain ⟨columns, rows⟩ := cr
      simp only [hrows] at h
      cases hcols : db.fault (.columns name) with
      | some e => simp [hcols] at h
      | none =>
        simp only [hcols] at h
        cases hscan : scanRows db name columns 0 rows [] with
        | panic msg => simp [hscan] at h
        | ret out =>
          simp only [hscan, Outcome.ret.injEq, Prod.mk.injEq, and_true] at h
          subst h
          obtain ⟨recs, hrecs, hall⟩ := scanRows_ret db name columns 0 rows [] out hscan
          rw [List.nil_append] at hrecs
          subst hrecs
          unfold Rows at hrows
          cases hf : db.fault (.rows name executionsID) with
          | some e => simp [hf] at hrows
          | none =>
            cases ht : db.table name with
            | none => simp [hf, ht] at hrows
            | some t =>
              simp only [hf, ht, Except.ok.injEq, Prod.mk.injEq] at hrows
              obtain ⟨hc, hr⟩ := hrows
              subst hc
              subst hr
              exact ⟨t, rfl, hall⟩
  · intro t hf ht hcols hnull
    have hrows : Rows db name executionsID =
        .ok (t.columns, t.rows.filter (fun r => decide (r.execution_id = executionsID))) := by
      simp [Rows, hf, ht]
    have hsub : ∀ (i : Nat) (rows : List Row), ∀ r ∈ readable db name i rows, r ∈ rows := by
      intro i rows
      induction rows generalizing i with
      | nil => simp [readable]
      | cons a rest ih =>
        intro r hr
        simp only [readable] at hr
        cases hfa : db.fault (.scan name i) with
        | some e =>
          simp only [hfa] at hr
          exact List.mem_cons_of_mem _ (ih _ r hr)
        | none =>
          simp only [hfa] at hr
          rcases List.mem_cons.1 hr with h | h
          · exact h ▸ List.mem_cons_self _ _
          · exact List.mem_cons_of_mem _ (ih _ r h)
    obtain ⟨out, hout⟩ := scanRows_total db name t.columns 0 _ []
      (fun r hr => hnull r (List.mem_of_mem_filter (hsub _ _ r hr)))
    exact ⟨out, by rw [GetTableData_of_ok db name executionsID _ _ hrows hcols, hout]⟩

/-! ## `ClearTables` -/

theorem gormDropTable_fault (db : DB) (table : String) : (gormDropTable db table).1.fault = db.fault := by
  unfold gormDropTable
  cases db.fault (.dropTable table) with
  | some err => rfl
  | none =>
    cases db.table table with
    | none => rfl
    | some t => rfl

theorem gormDropTable_tables (db : DB) (table : String) (h : db.fault (.dropTable table) = none) :
    (gormDropTable db table).1.tables = db.tables.filter (fun p => decide (p.1 ≠ table)) := by
  unfold gormDropTable
  rw [h]
  cases ht : db.table table with
  | some t => rfl
  | none =>
    simp only [DB.table, Option.map_eq_none', List.find?_eq_none] at ht
    symm
    rw [List.filter_eq_self]
    intro p hp
    simpa using ht p hp

theorem clearLoop_calls (names : List String) (st : DB × List (String × Option Err)) :
    (clearLoop names st).2.map (fun p => p.1) = st.2.map (fun p => p.1) ++ names := by
  induction names generalizing st with
  | nil => simp [clearLoop]
  | cons table rest ih => simp [clearLoop, ih]

theorem clearLoop_tables (names : List String) (st : DB × List (String × Option Err))
    (h : ∀ t, st.1.fault (.dropTable t) = none) :
    (clearLoop names st).1.tables = st.1.tables.filter (fun p => decide (p.1 ∉ names)) := by
  induction names generalizing st with
  | nil => simp [clearLoop]
  | cons table rest ih =>
    rw [clearLoop, ih _ (by intro t; simp only [gormDropTable_fault]; exact h t)]
    simp only [gormDropTable_tables st.1 table (h table), List.filter_filter]
    apply List.filter_congr
    intro p _
    by_cases h1 : p.1 = table <;> simp [h1]

theorem clearLoop_fault (names : List String) (st : DB × List (String × Option Err)) :
    (clearLoop names st).1.fault = st.1.fault := by
  induction names generalizing st with
  | nil => rfl
  | cons table rest ih => rw [clearLoop, ih, gormDropTable_fault]

/-- C10, as the code has it: whatever statements fail, `ClearTables` calls
`DropTable` once for each name `GetAllTables` returned, in that order, and
returns; when neither the listing nor any drop fails, no table is left, and a
second call drops nothing and leaves no table either; when the listing fails,
nothing is dropped and the tables stay as they were. -/
theorem clearTables_best_effort (db : DB) :
    (ClearTables db).2.map (fun p => p.1) = (GetAllTables db).1 ∧
    (db.fault .showTables = none → (∀ t, db.fault (.dropTable t) = none) →
      (ClearTables db).1.tables = [] ∧
      (ClearTables (ClearTables db).1).2 = [] ∧
      (ClearTables (ClearTables db).1).1.tables = []) ∧
    (∀ err, db.fault .showTables = some err →
      (ClearTables db).2 = [] ∧ (ClearTables db).1.tables = db.tables) := by
  refine ⟨?_, ?_, ?_⟩
  · simp [ClearTables, clearLoop_calls]
  · intro hshow hdrop
    have h1 : (ClearTables db).1.tables = [] := by
      unfold ClearTables
      rw [clearLoop_tables _ _ hdrop, List.filter_eq_nil_iff]
      intro p hp
      simp only [GetAllTables, hshow, decide_not, Bool.not_eq_true', decide_eq_false_iff_not,
        not_not, List.mem_map]
      exact ⟨p, hp, rfl⟩
    have hf : (ClearTables db).1.fault = db.fault := clearLoop_fault _ _
    have h2 : (GetAllTables (ClearTables db).1).1 = [] := by
      simp [GetAllTables, hf, hshow, h1]
    refine ⟨h1, ?_, ?_⟩
    · rw [ClearTables, h2]
      rfl
    · rw [ClearTables, h2]
      exact h1
  · intro err herr
    simp [ClearTables, GetAllTables, herr, clearLoop]

/-! ## Instances: witnesses and counterexamples -/

/-- C1 fails on the code: the count statement for `lambda` fails, yet
`GetSummary` returns a nil error and a map holding a `Summary` for `lambda` with
the count defaulted to `0` (the table has one row of execution 7). -/
theorem getSummary_count_failure_ignored :
    (Count dbCountFails "lambda" 7).2 = some "invalid connection" ∧
    dbCountFails.table "lambda" = some lambdaTable ∧
    (lambdaTable.rows.filter (fun r => decide (r.execution_id = 7))).length = 1 ∧
    GetSummary dbCountFails 7 = ([(7, [⟨"lambda", 0, F64.zero, Finish, "ok"⟩])], none) := by
  decide

/-- Instance of `getSummary_error_only_from_lookup` on `dbCountFails`. -/
theorem getSummary_error_only_from_lookup_witness :
    dbCountFails.fault .latestStatuses = none ∧
    (GetSummary dbCountFails 7).2 = none ∧
    summaryOf dbCountFails ⟨0, "lambda", Finish, "ok", 7⟩ ∈
      mapGet (GetSummary dbCountFails 7).1 7 ∧
    (summaryOf dbCountFails ⟨0, "lambda", Finish, "ok", 7⟩).ResourceCount = 0 :=
  ⟨rfl, ((getSummary_error_only_from_lookup dbCountFails 7).2 rfl).1,
    (((getSummary_error_only_from_lookup dbCountFails 7).2 rfl).2.2
      ⟨0, "lambda", Finish, "ok", 7⟩ (by decide)).1,
    (((getSummary_error_only_from_lookup dbCountFails 7).2 rfl).2.2
      ⟨0, "lambda", Finish, "ok", 7⟩ (by decide)).2.1 (by decide)⟩

/-- Instance of `getSummary_one_summary_per_pair` on the specification's example:
records with ids 1 (`Fetch`) and 5 (`Finish`) of the pair `(ec2, 7)` give one
`Summary` for `ec2` under key 7, with status `Finish`. -/
theorem getSummary_one_summary_per_pair_witness :
    dbHealthy.fault .latestStatuses = none ∧
    (dbHealthy.resource_statuses.map (fun r => r.ID)).Nodup ∧
    ∃ s, (mapGet (GetSummary dbHealthy 0).1 7).filter
        (fun s => decide (s.ResourceName = "ec2")) = [s] ∧
      s.Status = Finish ∧ s.Description = "ok" := by
  refine ⟨rfl, by decide, ?_⟩
  obtain ⟨s, r, hs, hr, ht, _, hmax, _, hst, hd⟩ :=
    ((getSummary_one_summary_per_pair dbHealthy 0 rfl (by decide)).2 "ec2" 7).1
      ⟨⟨5, "ec2", Finish, "ok", 7⟩, by decide, rfl, rfl⟩
  have h5 := hmax ⟨5, "ec2", Finish, "ok", 7⟩ (by decide) rfl rfl
  refine ⟨s, hs, ?_, ?_⟩
  · rw [hst]
    simp only [dbHealthy, exampleLedger, List.mem_cons, List.mem_singleton, List.not_mem_nil,
      or_false] at hr
    rcases hr with rfl | rfl | rfl
    · exact absurd h5 (by decide)
    · rfl
    · exact absurd ht (by decide)
  · rw [hd]
    simp only [dbHealthy, exampleLedger, List.mem_cons, List.mem_singleton, List.not_mem_nil,
      or_false] at hr
    rcases hr with rfl | rfl | rfl
    · exact absurd h5 (by decide)
    · rfl
    · exact absurd ht (by decide)

/-- Instance of `getSummary_resourceCount`: the Summary of `lambda` counts the one
row of execution 7. -/
theorem getSummary_resourceCount_witness :
    (⟨"lambda", 1, F64.zero, Finish, "ok"⟩ : Summary) ∈ mapGet (GetSummary dbHealthy 0).1 7 ∧
    (Count dbHealthy "lambda" 7).2 = none ∧
    ∃ t, dbHealthy.table "lambda" = some t ∧
      (1 : Int) = ((t.rows.filter (fun r => decide (r.execution_id = 7))).length : Nat) :=
  have hmem : (⟨"lambda", 1, F64.zero, Finish, "ok"⟩ : Summary) ∈
      mapGet (GetSummary dbHealthy 0).1 7 := by
    rw [mapGet_GetSummary dbHealthy 0 7 rfl]
    exact List.mem_map.2 ⟨⟨0, "lambda", Finish, "ok", 7⟩, by decide, by decide⟩
  ⟨hmem, by decide,
    getSummary_resourceCount dbHealthy 0 7 ⟨"lambda", 1, F64.zero, Finish, "ok"⟩ hmem
      (by decide)⟩

/-- C4 fails on the code: `ec2` has the column and its rows of execution 7 sum to
120.5, the sum statement fails, and the `Summary` reports `TotalSpent = 0` with
a nil error. -/
theorem getSummary_sum_failure_ignored :
    HasColumn dbSumFails "ec2" "price_per_month" = true ∧
    dbSumFails.table "ec2" = some ec2Table ∧
    sumPrices ec2Table 7 = .finite false 8479433673408512 (-46) ∧
    F64.toRat (.finite false 8479433673408512 (-46)) = 241 / 2 ∧
    GetSummary dbSumFails 7 = ([(7, [⟨"ec2", 3, F64.zero, Finish, "ok"⟩])], none) := by
  refine ⟨by decide, by decide, by decide, ?_, by decide⟩
  norm_num [F64.toRat]

/-- Instance of `getSummary_totalSpent`: on `dbCents` the Summary of `ebs` for
execution 3 carries the binary64 sum of the prices 0.1 and 0.2, which is
0.30000000000000004. -/
theorem getSummary_totalSpent_witness :
    (⟨"ebs", 2, .finite false 5404319552844596 (-54), Finish, "ok"⟩ : Summary) ∈
      mapGet (GetSummary dbCents 0).1 3 ∧
    HasColumn dbCents "ebs" "price_per_month" = true ∧
    (SumPricePerMonth dbCents "ebs" 3).2 = none ∧
    F64.toRat (.finite false 5404319552844596 (-54)) =
      1351079888211149 / 4503599627370496 ∧
    ∃ t, dbCents.table "ebs" = some t ∧
      F64.finite false 5404319552844596 (-54) = sumPrices t 3 :=
  have hmem : (⟨"ebs", 2, .finite false 5404319552844596 (-54), Finish, "ok"⟩ : Summary) ∈
      mapGet (GetSummary dbCents 0).1 3 := by decide
  ⟨hmem, by decide, by decide, by norm_num [F64.toRat],
    (getSummary_totalSpent dbCents 0 3 _ hmem).2.2 (by decide) (by decide)⟩

/-- Instance of `coerce_number_wins` at the text `1`, which `ParseBool` accepts too. -/
theorem coerce_number_wins_witness :
    ParseFloat "1" = (.finite false (2 ^ 52) (-52), none) ∧
    ParseBool "1" = (true, none) ∧
    coerce "1" = some (.number (.finite false (2 ^ 52) (-52))) :=
  ⟨by decide, by decide, coerce_number_wins.1 "1" _ (by decide)⟩

/-- C7 fails on the code: `T` is not a number and is neither `true` nor `false`,
yet it is stored as the boolean `true`, not as a string. -/
theorem coerce_T_is_boolean :
    (ParseFloat "T").2 = some NumError.ErrSyntax ∧ "T" ≠ "true" ∧ "T" ≠ "false" ∧
    coerce "T" = some (.boolean true) ∧
    rowRecord ["name"] ⟨7, none, [.bytes "T"]⟩ = .ret [("name", .boolean true)] := by
  decide

/-- Instances of `coerce_string_otherwise`: the empty text and a text with a
leading blank are stored as strings. -/
theorem coerce_string_otherwise_witness :
    ((ParseFloat " 42").2 ≠ none ∧ coerce " 42" = some (.string " 42")) ∧
    ((ParseFloat "").2 ≠ none ∧ coerce "" = some (.string "")) :=
  ⟨⟨by decide, coerce_string_otherwise " 42" (by decide) (by decide)⟩,
    ⟨by decide, coerce_string_otherwise "" (by decide) (by decide)⟩⟩

/-- C8 fails on the code: the scan of the first of the three rows of execution 7
fails, and `GetTableData` returns a nil error with the records of the other two. -/
theorem getTableData_scan_failure_skipped :
    dbScanFails.fault (.scan "ec2" 0) = some "scan failed" ∧
    (ec2Table.rows.filter (fun r => decide (r.execution_id = 7))).length = 3 ∧
    GetTableData dbScanFails "ec2" 7 = .ret
      ([ [ ("execution_id", .number (.finite false 7881299347898368 (-50))),
           ("price_per_month", .number (.finite false 5770237022568448 (-48))),
           ("name", .boolean true) ],
         [ ("execution_id", .number (.finite false 7881299347898368 (-50))),
           ("price_per_month", .string ""),
           ("name", .string " 42") ] ], none) := by
  decide

/-- Instance of `getTableData_skips_failed_scans` on `dbScanFails`: two of the
three rows are read, and the error is nil. -/
theorem getTableData_skips_failed_scans_witness :
    Rows dbScanFails "ec2" 7 =
      .ok (ec2Table.columns, ec2Table.rows.filter (fun r => decide (r.execution_id = 7))) ∧
    dbScanFails.fault (.columns "ec2") = none ∧
    ∃ data, GetTableData dbScanFails "ec2" 7 = .ret (data, none) ∧ data.length = 2 := by
  refine ⟨rfl, rfl, ?_⟩
  obtain ⟨data, h, hlen⟩ := (getTableData_skips_failed_scans dbScanFails "ec2" 7).2
    ec2Table.columns (ec2Table.rows.filter (fun r => decide (r.execution_id = 7)))
    rfl (by decide) (by decide)
  exact ⟨data, h, by rw [hlen]; decide⟩

/-- Instances of `getTableData_rows_of_execution`: a table that does not exist
gives the error and no record; `ec2` gives one record per row of execution 8. -/
theorem getTableData_rows_of_execution_witness :
    GetTableData dbHealthy "s3" 8 = .ret ([], some "no such table") ∧
    ∃ data, GetTableData dbHealthy "ec2" 8 = .ret (data, none) ∧
      List.Forall₂ (fun r rec => rowRecord ec2Table.columns r = .ret rec)
        [⟨8, some (.finite false 4503599627370496 (-52)),
          [.bytes "8", .bytes "1", .bytes "db"]⟩] data := by
  refine ⟨(getTableData_rows_of_execution dbHealthy "s3" 8).1 "no such table" rfl, ?_⟩
  obtain ⟨data, h⟩ := (getTableData_rows_of_execution dbHealthy "ec2" 8).2.2.2 ec2Table
    rfl rfl rfl (by decide)
  obtain ⟨t, ht, hall⟩ := (getTableData_rows_of_execution dbHealthy "ec2" 8).2.2.1 data h
  have : t = ec2Table := by
    have h1 : dbHealthy.table "ec2" = some ec2Table := rfl
    rw [h1] at ht
    exact (Option.some.inj ht).symm
  subst this
  exact ⟨data, h, hall⟩

/-- C10 fails on the code: the listing fails, so no drop is attempted and none
fails, yet both tables are left. -/
theorem clearTables_listing_failure_keeps_tables :
    (GetAllTables dbListFails).2 = some "syntax error" ∧
    (∀ t, dbListFails.fault (.dropTable t) = none) ∧
    (ClearTables dbListFails).2 = [] ∧
    (ClearTables dbListFails).1.tables = [("ec2", ec2Table), ("lambda", lambdaTable)] :=
  ⟨by decide, fun _ => rfl, by decide, by decide⟩

/-- Instances of `clearTables_best_effort`: with a failing drop of `ec2` both
tables are still tried, in order; with no failure no table is left. -/
theorem clearTables_best_effort_witness :
    (ClearTables dbDropFails).2.map (fun p => p.1) = ["ec2", "lambda"] ∧
    (dbHealthy.fault .showTables = none ∧ (∀ t, dbHealthy.fault (.dropTable t) = none)) ∧
    (ClearTables dbHealthy).1.tables = [] ∧
    (ClearTables (ClearTables dbHealthy).1).2 = [] ∧
    (ClearTables (ClearTables dbHealthy).1).1.tables = [] :=
  ⟨(clearTables_best_effort dbDropFails).1, ⟨rfl, fun _ => rfl⟩,
    (clearTables_best_effort dbHealthy).2.1 rfl (fun _ => rfl)⟩

end Storage
